import Mathlib

/-
  Shallow embedding of flaskext/kvsession.py (Flask-KVSession).

  Python strings are modelled as List Char.  The external key-value store
  (a simplekv.KeyValueStore) is modelled as an association list of
  (key, payload) pairs with first-match lookup; put prepends, which matches
  the observable overwrite semantics of the store.  Python exceptions are
  modelled with Except over an explicit error type.

  The base class flask.Session (and the werkzeug SecureCookie machinery
  underneath it) is an external collaborator, not part of this repository:
  its serialize/unserialize payload codec, the signing secret and the hash
  method are modelled as an explicit context (structure Ctx below), with
  the properties the spec assumes of them (payload round-trip, hexdigest
  output shape) taken as hypotheses of the theorems that need them.
-/

abbrev Key := List Char
abbrev Payload := List Char
abbrev SessionData := List (List Char × List Char)

/-- Python exceptions that the embedded code can raise or observe. -/
inductive PyErr where
  | keyError
  | valueError
  | attributeError
  | otherError (code : Nat)
deriving DecidableEq

/-- Model of the external simplekv store: association list, first match wins. -/
abbrev Store := List (Key × Payload)

/-- store.put(key, data): stores data under key and returns the key actually
stored (normally the input key).  Prepending realises overwrite semantics
because lookup takes the first match. -/
def store_put (st : Store) (k : Key) (v : Payload) : Key × Store :=
  (k, (k, v) :: st)

def store_lookup : Store → Key → Option Payload
  | [], _ => none
  | kv :: t, k => if kv.1 = k then some kv.2 else store_lookup t k

/-- store.get(key): returns the data or raises KeyError when the key is absent. -/
def store_get (st : Store) (k : Key) : Except PyErr Payload :=
  match store_lookup st k with
  | some v => Except.ok v
  | none => Except.error PyErr.keyError

/-- store.delete(key): removes every entry stored under the key. -/
def store_delete : Store → Key → Store
  | [], _ => []
  | kv :: t, k => if kv.1 = k then store_delete t k else kv :: store_delete t k

/-- Lowercase hex digit, as produced by the %x format of Python. -/
def hexDigitChar (n : Nat) : Char :=
  if n < 10 then Char.ofNat (Char.toNat '0' + n) else Char.ofNat (Char.toNat 'a' + n - 10)

/-- Digits of n in base 16, most significant first, empty for 0.
The first argument is fuel (always called with fuel at least n), which keeps
the recursion structural so that concrete values reduce in the kernel. -/
def toHexAux : Nat → Nat → List Char
  | 0, _ => []
  | fuel + 1, n =>
    if n = 0 then [] else toHexAux fuel (n / 16) ++ [hexDigitChar (n % 16)]

/-- The Python format string %x applied to a natural number: lowercase
hexadecimal, no 0x prefix, no padding, and the single digit 0 for zero. -/
def toHex (n : Nat) : List Char :=
  if n = 0 then ['0'] else toHexAux n n

/-- Numeric value of a lowercase hex digit (only applied to [0-9a-f]). -/
def hexVal (c : Char) : Nat :=
  if Char.toNat '0' ≤ c.toNat ∧ c.toNat ≤ Char.toNat '9' then c.toNat - Char.toNat '0'
  else if Char.toNat 'a' ≤ c.toNat ∧ c.toNat ≤ Char.toNat 'f' then c.toNat - Char.toNat 'a' + 10
  else 0

/-- Python int(s, 16) on a string of lowercase hex digits. -/
def fromHex (l : List Char) : Nat :=
  l.foldl (fun a c => a * 16 + hexVal c) 0

/-- Membership in the regex character class [0-9a-f]. -/
def isHexChar (c : Char) : Bool :=
  (Char.toNat '0' ≤ c.toNat && c.toNat ≤ Char.toNat '9')
  || (Char.toNat 'a' ≤ c.toNat && c.toNat ≤ Char.toNat 'f')

/-- generate_session_key(random_source, expires=None, bits=64), lines 21-43.

random_source.getrandbits(bits) is modelled as applying the injected source
(a function from the bit count to the returned number) to bits.  expires is
an Option Nat holding UTC epoch seconds: none embeds Python None (mapped to
0 by the source), some t embeds an integer timestamp (a datetime argument is
normalised to epoch seconds by calendar.timegm before formatting, so it also
arrives here as its epoch number).  The result is the Python expression
  "%x_%x" % (idbits, expires). -/
def generate_session_key (random_source : Nat → Nat) (expires : Option Nat) (bits : Nat) : Key :=
  toHex (random_source bits) ++ '_' :: toHex (Option.getD expires 0)

/-- In-memory session object: the data mapping of the flask session plus the
private attribute __kvstore_key (none when the attribute was never set, which
makes reading it raise AttributeError). -/
structure Session where
  data : SessionData
  kvstoreKey : Option Key
deriving DecidableEq

/-- External context read by the Session methods: the signing secret
(self.secret_key), the HMAC hexdigest under the configured hash method
(hmac.new(secret, msg, hash_method).hexdigest()), the payload codec of the
flask.Session base class (super().serialize / super().unserialize), and the
configured random source and SESSION_KEY_BITS. -/
structure Ctx where
  secret : List Char
  digest : List Char → List Char → List Char
  encode : SessionData → Option Nat → Payload
  decode : Payload → SessionData
  random_source : Nat → Nat
  bits : Nat

/-- Split a list at the first occurrence of sep: some (before, after), or
none when sep does not occur. -/
def splitFirst (sep : Char) : List Char → Option (List Char × List Char)
  | [] => none
  | c :: cs =>
    if c = sep then some ([], cs)
    else
      match splitFirst sep cs with
      | some p => some (c :: p.1, p.2)
      | none => none

/-- Python s.rsplit(sep, 1) unpacked into exactly two names: splits at the
LAST occurrence of sep; none embeds the ValueError raised by unpacking the
one-element list produced when sep does not occur in s. -/
def rsplitOnce (sep : Char) (s : List Char) : Option (List Char × List Char) :=
  match splitFirst sep s.reverse with
  | some p => some (p.2.reverse, p.1.reverse)
  | none => none

/-- Session.serialize(self, expires=None), lines 70-89: encode the session
data with the base-class codec, put it into the store under a freshly
generated key, HMAC-sign the key that the store returned, and hand back
key + "_" + hexdigest together with the updated store.  Note that the
session object itself is not modified (in particular __kvstore_key is not
set here). -/
def Session.serialize (ctx : Ctx) (s : Session) (expires : Option Nat) (st : Store) :
    List Char × Store :=
  let sdata := ctx.encode s.data expires
  let pr := store_put st (generate_session_key ctx.random_source expires ctx.bits) sdata
  (pr.1 ++ '_' :: ctx.digest ctx.secret pr.1, pr.2)

/-- Session.unserialize(cls, string, secret_key), lines 91-111.

get stands for current_app.session_kvstore.get; it is a parameter because
the store is an external collaborator that may fail in arbitrary ways.
Control flow of the source: rsplit the token (ValueError when there is no
underscore), recompute the HMAC hexdigest of the key part and compare it to
the mac part; on a match fetch sdata from the store, absorbing exactly
KeyError (sdata stays the empty string); any other exception propagates.
Finally decode sdata with the base-class codec and tag the resulting session
object with the key as __kvstore_key - this tag is set unconditionally. -/
def Session.unserialize (ctx : Ctx) (string : List Char) (get : Key → Except PyErr Payload) :
    Except PyErr Session :=
  match rsplitOnce '_' string with
  | none => Except.error PyErr.valueError
  | some (key, mac_hexdigest) =>
    if ctx.digest ctx.secret key = mac_hexdigest then
      match get key with
      | Except.ok sdata => Except.ok (Session.mk (ctx.decode sdata) (some key))
      | Except.error PyErr.keyError => Except.ok (Session.mk (ctx.decode []) (some key))
      | Except.error e => Except.error e
    else
      Except.ok (Session.mk (ctx.decode []) (some key))

/-- Session.destroy(self), lines 56-68: first every key is deleted from the
in-memory mapping, then store.delete(self.__kvstore_key) runs.  When the
attribute __kvstore_key was never set, reading it raises AttributeError -
after the mapping has already been cleared, and without touching the store.
The result is the mutated session together with the store outcome. -/
def Session.destroy (s : Session) (st : Store) : Session × Except PyErr Store :=
  match s.kvstoreKey with
  | none => (Session.mk [] none, Except.error PyErr.attributeError)
  | some k => (Session.mk [] (some k), Except.ok (store_delete st k))

/-- KVSession.key_regex.match(key) followed by int(m.group('expires'), 16):
the anchored pattern is [0-9a-f]+ then an underscore then the expires group
[0-9a-f]+.  Returns the parsed expires group on a full match, none otherwise.
(The greedy first hex group cannot eat an underscore, so matching succeeds
exactly when the part before the first underscore and the part after it are
both nonempty strings of lowercase hex digits.) -/
def key_regex_match (s : Key) : Option Nat :=
  match splitFirst '_' s with
  | some p =>
    if !p.1.isEmpty && !p.2.isEmpty && p.1.all isHexChar && p.2.all isHexChar then
      some (fromHex p.2)
    else none
  | none => none

/-- KVSession.cleanup_sessions(self), lines 130-148: iterate over the keys
of the store; for every key matched by key_regex, parse the expires group as
hex and delete the key when current_time >= key_expiry_time.  The source has
no special case for a zero expiry time. -/
def cleanup_sessions (current_time : Nat) (st : Store) : Store :=
  (st.map Prod.fst).foldl
    (fun acc k =>
      match key_regex_match k with
      | some key_expiry_time =>
        if key_expiry_time ≤ current_time then store_delete acc k else acc
      | none => acc)
    st

/-- The Flask application object, reduced to the attribute the constructor
writes.  A real application object is truthy, so the if app: test in the
constructor succeeds exactly when app is not None. -/
structure App where
  session_kvstore : Option Store
deriving DecidableEq

/-- KVSession.__init__(self, session_kvstore, app=None, random_source=None),
lines 124-128.  The first statement is app.session_kvstore = session_kvstore,
executed before the if app: test; when app is None, attribute assignment on
None raises AttributeError, so the constructor never reaches init_app.  With
a real application the attribute is set and init_app runs. -/
def KVSession_init (session_kvstore : Store) (app : Option App) : Except PyErr App :=
  match app with
  | none => Except.error PyErr.attributeError
  | some _ => Except.ok (App.mk (some session_kvstore))

/- Concrete context and data used by the witnesses. -/

/-- Concrete session data used by the witnesses. -/
def d0 : SessionData := [(['a'], ['b'])]

/-- Concrete external context for the witnesses: a constant four-character
hex digest and a payload codec that round-trips d0 and decodes the empty
payload to the empty mapping. -/
def ctx0 : Ctx :=
  Ctx.mk (String.data "s3cr3t")
    (fun _ _ => String.data "ffff")
    (fun d _ => if d = d0 then ['X'] else [])
    (fun p => if p = ['X'] then d0 else [])
    (fun _ => 5)
    64

/-- Concrete session object used by the witnesses. -/
def s0 : Session := Session.mk d0 none

/-- Discriminator: did the embedded computation return normally (no Python
exception reached the caller)? -/
def exceptIsOk : Except PyErr Session → Bool
  | Except.ok _ => true
  | Except.error _ => false

/-- A store.get that always raises KeyError, used by a witness. -/
def get9 : Key → Except PyErr Payload :=
  fun _ => Except.error PyErr.keyError

/- Helper lemmas about the hex formatting. -/

theorem hexVal_hexDigitChar : ∀ m, m < 16 → hexVal (hexDigitChar m) = m := by decide

theorem isHexChar_hexDigitChar : ∀ m, m < 16 → isHexChar (hexDigitChar m) = true := by decide

theorem fromHex_append_digit (a : List Char) (c : Char) :
    fromHex (a ++ [c]) = fromHex a * 16 + hexVal c := by
  simp [fromHex, List.foldl_append]

theorem fromHex_toHexAux : ∀ fuel n, n ≤ fuel → fromHex (toHexAux fuel n) = n := by
  intro fuel
  induction fuel with
  | zero =>
    intro n hn
    have h0 : n = 0 := by omega
    subst h0
    simp [toHexAux, fromHex]
  | succ f ih =>
    intro n hn
    by_cases h0 : n = 0
    · subst h0
      simp [toHexAux, fromHex]
    · have hlt : n / 16 < n := Nat.div_lt_self (Nat.pos_of_ne_zero h0) (by norm_num)
      have hle : n / 16 ≤ f := by omega
      have hmod : n % 16 < 16 := Nat.mod_lt _ (by norm_num)
      simp only [toHexAux, if_neg h0]
      rw [fromHex_append_digit, ih (n / 16) hle, hexVal_hexDigitChar (n % 16) hmod]
      have hdm := Nat.div_add_mod n 16
      omega

theorem toHexAux_all_hex : ∀ fuel n, (toHexAux fuel n).all isHexChar = true := by
  intro fuel
  induction fuel with
  | zero => intro n; simp [toHexAux]
  | succ f ih =>
    intro n
    by_cases h0 : n = 0
    · subst h0; simp [toHexAux]
    · have hmod : n % 16 < 16 := Nat.mod_lt _ (by norm_num)
      simp only [toHexAux, if_neg h0, List.all_append]
      rw [ih (n / 16)]
      simp [isHexChar_hexDigitChar (n % 16) hmod]

theorem toHex_all_hex (n : Nat) : (toHex n).all isHexChar = true := by
  by_cases h0 : n = 0
  · subst h0; decide
  · simp only [toHex, if_neg h0]
    exact toHexAux_all_hex n n

theorem fromHex_toHex (n : Nat) : fromHex (toHex n) = n := by
  by_cases h0 : n = 0
  · subst h0; decide
  · simp only [toHex, if_neg h0]
    exact fromHex_toHexAux n n (Nat.le_refl n)

theorem toHex_ne_nil (n : Nat) : toHex n ≠ [] := by
  cases n with
  | zero => decide
  | succ m =>
    simp only [toHex, if_neg (Nat.succ_ne_zero m), toHexAux]
    exact List.append_ne_nil_of_right_ne_nil _ (by simp)

theorem not_mem_of_all_hexChar {l : List Char} (h : l.all isHexChar = true) : '_' ∉ l := by
  intro hm
  have h2 := List.all_eq_true.1 h '_' hm
  exact absurd h2 (by decide)

theorem underscore_not_mem_toHex (n : Nat) : '_' ∉ toHex n :=
  not_mem_of_all_hexChar (toHex_all_hex n)

/- Helper lemmas about splitFirst and rsplitOnce. -/

theorem splitFirst_not_mem {sep : Char} : ∀ {l : List Char}, sep ∉ l → splitFirst sep l = none := by
  intro l
  induction l with
  | nil => intro h; rfl
  | cons c cs ih =>
    intro h
    have hc : ¬ c = sep := fun hh => h (by simp [hh])
    have hcs : sep ∉ cs := fun hm => h (List.mem_cons_of_mem _ hm)
    simp only [splitFirst, if_neg hc, ih hcs]

theorem splitFirst_append_cons (sep : Char) (b : List Char) :
    ∀ a : List Char, sep ∉ a → splitFirst sep (a ++ sep :: b) = some (a, b) := by
  intro a
  induction a with
  | nil => intro h; simp [splitFirst]
  | cons x xs ih =>
    intro h
    have hx : ¬ x = sep := fun hh => h (by simp [hh])
    have hxs : sep ∉ xs := fun hm => h (List.mem_cons_of_mem _ hm)
    rw [List.cons_append]
    simp only [splitFirst, if_neg hx, ih hxs]

theorem splitFirst_mem {sep : Char} : ∀ {l : List Char}, sep ∈ l →
    ∃ p, splitFirst sep l = some p := by
  intro l
  induction l with
  | nil => intro h; exact absurd h (List.not_mem_nil _)
  | cons c cs ih =>
    intro h
    by_cases hc : c = sep
    · exact ⟨([], cs), by simp [splitFirst, hc]⟩
    · have hcs : sep ∈ cs := by
        rcases List.mem_cons.1 h with h1 | h1
        · exact absurd h1.symm hc
        · exact h1
      obtain ⟨p, hp⟩ := ih hcs
      exact ⟨(c :: p.1, p.2), by simp [splitFirst, hc, hp]⟩

theorem rsplitOnce_append (k : List Char) {m : List Char} (hm : '_' ∉ m) :
    rsplitOnce '_' (k ++ '_' :: m) = some (k, m) := by
  have hrev : (k ++ '_' :: m).reverse = m.reverse ++ '_' :: k.reverse := by
    simp [List.reverse_append]
  unfold rsplitOnce
  rw [hrev, splitFirst_append_cons '_' k.reverse m.reverse (by simpa using hm)]
  simp

theorem rsplitOnce_not_mem {s : List Char} (h : '_' ∉ s) : rsplitOnce '_' s = none := by
  unfold rsplitOnce
  rw [splitFirst_not_mem (by simpa using h)]

theorem rsplitOnce_mem {s : List Char} (h : '_' ∈ s) :
    ∃ p, rsplitOnce '_' s = some p := by
  obtain ⟨p, hp⟩ := splitFirst_mem (l := s.reverse) (by simpa using h)
  exact ⟨(p.2.reverse, p.1.reverse), by unfold rsplitOnce; rw [hp]⟩

/- Helper lemmas about List.set. -/

theorem set_append_shift (a b : List Char) (n : Nat) (c : Char) :
    (a ++ b).set (a.length + n) c = a ++ b.set n c := by
  induction a with
  | nil => simp
  | cons x xs ih =>
    have h : (x :: xs).length + n = (xs.length + n) + 1 := by
      rw [List.length_cons]; omega
    rw [List.cons_append, h, List.set_cons_succ, ih, List.cons_append]

theorem set_ne_of_getD {l : List Char} {i : Nat} {c : Char} (hi : i < l.length)
    (hc : c ≠ l.getD i ' ') : l.set i c ≠ l := by
  intro he
  apply hc
  have hlen : i < (l.set i c).length := by rw [List.length_set]; exact hi
  have h1 : (l.set i c).getD i ' ' = c := by
    rw [List.getD_eq_getElem _ _ hlen]
    exact List.getElem_set_self hlen
  rw [he] at h1
  exact h1.symm

/- Helper lemmas about the store. -/

theorem store_lookup_delete (st : Store) (k : Key) :
    store_lookup (store_delete st k) k = none := by
  induction st with
  | nil => rfl
  | cons kv t ih =>
    by_cases h : kv.1 = k
    · simp [store_delete, h, ih]
    · simp [store_delete, h, store_lookup, ih]

/- Central reduction lemma for unserialize on a token whose mac part has no
underscore: the rsplit recovers the two components exactly. -/

theorem unserialize_split (ctx : Ctx) (key mac : List Char) (hm : '_' ∉ mac)
    (get : Key → Except PyErr Payload) :
    Session.unserialize ctx (key ++ '_' :: mac) get =
      if ctx.digest ctx.secret key = mac then
        (match get key with
         | Except.ok sdata => Except.ok (Session.mk (ctx.decode sdata) (some key))
         | Except.error PyErr.keyError => Except.ok (Session.mk (ctx.decode []) (some key))
         | Except.error e => Except.error e)
      else Except.ok (Session.mk (ctx.decode []) (some key)) := by
  unfold Session.unserialize
  rw [rsplitOnce_append key hm]

/-- Claim C10: constructing KVSession(session_kvstore, app=None) - including
the documented deferred setup form KVSession(store) with the default
app=None - always raises AttributeError, because the constructor assigns
app.session_kvstore before testing whether app is None; that deferred path
is therefore unreachable. -/
theorem C10_init_with_none_app_raises (st : Store) :
    KVSession_init st none = Except.error PyErr.attributeError := rfl

/-- Claim C1, the code evaluated at the failing input of the claim: with
store keys a1_0, b2_5, c3_a and not_a_valid_key_format at current time 7
(past = 5 < 7 <= future = 0xa = 10), cleanup_sessions deletes BOTH b2_5 and
the never-expiring key a1_0, because the source has no expiry-nonzero guard
and 7 >= 0; the claim says exactly b2_5 is deleted and a1_0 remains. -/
theorem C1_cleanup_deletes_zero_expiry_key :
    cleanup_sessions 7
      [(String.data "a1_0", []), (String.data "b2_5", []),
       (String.data "c3_a", []), (String.data "not_a_valid_key_format", [])]
      = [(String.data "c3_a", []), (String.data "not_a_valid_key_format", [])] := by
  rfl

/-- Claim C7: for every random source, expires and bit count, the generated
session key fully matches the anchored pattern of one or more lowercase hex
digits, an underscore, and one or more lowercase hex digits, with the second
group decoding (as hex) to the epoch seconds of expires, or 0 when expires
is absent; concretely a source returning 0x1A2B with expires 1000 and
bits 16 yields 1a2b_3e8. -/
theorem C7_generate_session_key_format (random_source : Nat → Nat)
    (expires : Option Nat) (bits : Nat) :
    key_regex_match (generate_session_key random_source expires bits)
        = some (Option.getD expires 0) ∧
      generate_session_key (fun _ => 6699) (some 1000) 16 = String.data "1a2b_3e8" := by
  constructor
  · unfold generate_session_key key_regex_match
    rw [splitFirst_append_cons '_' (toHex (Option.getD expires 0))
      (toHex (random_source bits)) (underscore_not_mem_toHex _)]
    simp [toHex_all_hex, fromHex_toHex, toHex_ne_nil, List.isEmpty_iff]
  · rfl

/-- Claim C4 counterexample: a token containing no underscore makes
unserialize raise ValueError to the caller (the rsplit unpacking fails),
where the claim says unserialize never raises on malformed tokens. -/
theorem C4_counterexample_no_underscore_raises :
    Session.unserialize ctx0 (String.data "deadbeef") (store_get [])
      = Except.error PyErr.valueError := rfl

/-- Claim C4 as amended: for every token containing at least one underscore,
unserialize over a store-backed get returns normally (no exception reaches
the caller); tokens with no underscore raise ValueError instead. -/
theorem C4_underscore_token_never_raises (ctx : Ctx) (tok : List Char) (st : Store)
    (h : '_' ∈ tok) :
    exceptIsOk (Session.unserialize ctx tok (store_get st)) = true := by
  obtain ⟨p, hp⟩ := rsplitOnce_mem h
  obtain ⟨key, mac⟩ := p
  unfold Session.unserialize
  rw [hp]
  by_cases hd : ctx.digest ctx.secret key = mac
  · simp only [if_pos hd, store_get]
    cases store_lookup st key with
    | some v => rfl
    | none => rfl
  · simp only [if_neg hd]
    rfl

/-- Claim C4 witness for the amended theorem at a concrete token. -/
theorem C4_underscore_token_witness :
    exceptIsOk (Session.unserialize ctx0 (String.data "ab_cd") (store_get [])) = true :=
  C4_underscore_token_never_raises ctx0 (String.data "ab_cd") [] (by decide)

/-- Claim C5 counterexample: for a token whose MAC does not verify,
unserialize still tags the returned session with the unverified key as its
backing __kvstore_key (the tag is assigned unconditionally at line 109),
where the claim says the session has no backing key attached. -/
theorem C5_counterexample_failed_mac_still_tagged :
    Session.unserialize ctx0 (String.data "ab_cd") (store_get [])
      = Except.ok (Session.mk [] (some (String.data "ab"))) := rfl

/-- Claim C5 as amended: for every token whose MAC does not verify,
unserialize silently (without raising) returns an empty fresh session, but
one tagged with the unverified key component as its __kvstore_key. -/
theorem C5_failed_mac_empty_session_tagged (ctx : Ctx) (key mac : List Char)
    (get : Key → Except PyErr Payload) (hm : '_' ∉ mac)
    (hne : ctx.digest ctx.secret key ≠ mac) (hempty : ctx.decode [] = []) :
    Session.unserialize ctx (key ++ '_' :: mac) get
      = Except.ok (Session.mk [] (some key)) := by
  rw [unserialize_split ctx key mac hm, if_neg hne, hempty]

/-- Claim C5 witness for the amended theorem at a concrete token. -/
theorem C5_failed_mac_witness :
    Session.unserialize ctx0 (String.data "ab" ++ '_' :: String.data "cd") (store_get [])
      = Except.ok (Session.mk [] (some (String.data "ab"))) :=
  C5_failed_mac_empty_session_tagged ctx0 (String.data "ab") (String.data "cd")
    (store_get []) (by decide) (by decide) rfl

/-- Claim C9: for a token with a valid signature, a KeyError from store.get
is absorbed - the payload is treated as empty and the fresh session is still
tagged with the key - and KeyError is the only error absorbed: every other
exception raised by store.get propagates to the caller. -/
theorem C9_keyerror_absorbed_others_propagate (ctx : Ctx) (key : List Char)
    (get : Key → Except PyErr Payload)
    (hm : '_' ∉ ctx.digest ctx.secret key) (hempty : ctx.decode [] = []) :
    (get key = Except.error PyErr.keyError →
      Session.unserialize ctx (key ++ '_' :: ctx.digest ctx.secret key) get
        = Except.ok (Session.mk [] (some key))) ∧
    (∀ e, e ≠ PyErr.keyError → get key = Except.error e →
      Session.unserialize ctx (key ++ '_' :: ctx.digest ctx.secret key) get
        = Except.error e) := by
  have hsplit := unserialize_split ctx key (ctx.digest ctx.secret key) hm get
  rw [if_pos rfl] at hsplit
  constructor
  · intro hg
    rw [hsplit, hg, hempty]
  · intro e he hg
    rw [hsplit, hg]
    cases e with
    | keyError => exact absurd rfl he
    | valueError => rfl
    | attributeError => rfl
    | otherError code => rfl

/-- Claim C9 witness: concrete valid-signature token over a get that raises
KeyError yields the empty session tagged with the key. -/
theorem C9_keyerror_witness :
    Session.unserialize ctx0
        (String.data "ab" ++ '_' :: ctx0.digest ctx0.secret (String.data "ab")) get9
      = Except.ok (Session.mk [] (some (String.data "ab"))) :=
  (C9_keyerror_absorbed_others_propagate ctx0 (String.data "ab") get9
    (by decide) rfl).1 rfl

/-- Claim C2: round-trip - unserializing the token produced by serialize,
with the same secret, an untampered token and the store state left by
serialize, yields a session whose data mapping equals the original session's
mapping, even though the key component itself contains an underscore (the
split is taken once from the right).  The hypotheses record the two facts
about the external collaborators: the hexdigest contains no underscore, and
the base-class payload codec round-trips the session data. -/
theorem C2_serialize_unserialize_roundtrip (ctx : Ctx) (s : Session)
    (expires : Option Nat) (st : Store)
    (hmac : '_' ∉ ctx.digest ctx.secret
      (generate_session_key ctx.random_source expires ctx.bits))
    (hcodec : ctx.decode (ctx.encode s.data expires) = s.data) :
    Session.unserialize ctx (Session.serialize ctx s expires st).1
        (store_get (Session.serialize ctx s expires st).2)
      = Except.ok (Session.mk s.data
          (some (generate_session_key ctx.random_source expires ctx.bits))) := by
  simp only [Session.serialize, store_put]
  rw [unserialize_split ctx _ _ hmac, if_pos rfl]
  simp [store_get, store_lookup, hcodec]

/-- Claim C2 witness at a concrete context, session, expiry and store. -/
theorem C2_roundtrip_witness :
    Session.unserialize ctx0 (Session.serialize ctx0 s0 (some 3) []).1
        (store_get (Session.serialize ctx0 s0 (some 3) []).2)
      = Except.ok (Session.mk s0.data
          (some (generate_session_key ctx0.random_source (some 3) ctx0.bits))) :=
  C2_serialize_unserialize_roundtrip ctx0 s0 (some 3) [] (by decide) (by decide)

/-- Claim C8 counterexample: serialize does not attach __kvstore_key to the
session object, so destroying a session that was serialized to the store
(but never loaded from it) raises AttributeError and leaves the backing
entry written by serialize in the store - refuting the claim for the
already-serialized half of its precondition. -/
theorem C8_counterexample_destroy_after_serialize :
    (Session.destroy s0 (Session.serialize ctx0 s0 (some 3) []).2).2
        = Except.error PyErr.attributeError ∧
      store_get (Session.serialize ctx0 s0 (some 3) []).2
          (generate_session_key ctx0.random_source (some 3) ctx0.bits)
        = Except.ok (ctx0.encode d0 (some 3)) :=
  ⟨rfl, rfl⟩

/-- Claim C8 as amended: for a session that carries a backing key (which is
the case exactly when it was loaded through unserialize; serialize does not
attach the key), destroy empties the in-memory mapping and deletes the
backing entry, after which store.get on that key fails with not-found. -/
theorem C8_destroy_with_backing_key (s : Session) (st : Store) (k : Key)
    (h : s.kvstoreKey = some k) :
    (Session.destroy s st).1.data = [] ∧
    (Session.destroy s st).2 = Except.ok (store_delete st k) ∧
    store_get (store_delete st k) k = Except.error PyErr.keyError := by
  unfold Session.destroy
  rw [h]
  refine ⟨rfl, rfl, ?_⟩
  simp [store_get, store_lookup_delete]

/-- Claim C8 witness at a concrete loaded session and store. -/
theorem C8_destroy_witness :
    (Session.destroy (Session.mk d0 (some (String.data "ab_0")))
        [(String.data "ab_0", ['X'])]).1.data = [] ∧
    (Session.destroy (Session.mk d0 (some (String.data "ab_0")))
        [(String.data "ab_0", ['X'])]).2
      = Except.ok (store_delete [(String.data "ab_0", ['X'])] (String.data "ab_0")) ∧
    store_get (store_delete [(String.data "ab_0", ['X'])] (String.data "ab_0"))
        (String.data "ab_0") = Except.error PyErr.keyError :=
  C8_destroy_with_backing_key (Session.mk d0 (some (String.data "ab_0")))
    [(String.data "ab_0", ['X'])] (String.data "ab_0") rfl

/-- Tampering with one character inside the mac part of a token built as
key plus underscore plus hexdigest of key makes verification fail, for any
store.get: the result is a normal return carrying an empty data mapping.
The hypotheses record that hexdigests have a fixed length L, contain no
underscore, and that the base codec decodes the empty payload to the empty
mapping. -/
theorem unserialize_tampered (ctx : Ctx) (L : Nat) (key : List Char) (i : Nat) (c : Char)
    (get : Key → Except PyErr Payload)
    (hL : ∀ k, (ctx.digest ctx.secret k).length = L)
    (hno : ∀ k, '_' ∉ ctx.digest ctx.secret k)
    (hempty : ctx.decode [] = [])
    (hi : i < L)
    (hc : c ≠ (ctx.digest ctx.secret key).getD i ' ') :
    Except.map Session.data
      (Session.unserialize ctx
        ((key ++ '_' :: ctx.digest ctx.secret key).set (key.length + 1 + i) c) get)
      = Except.ok [] := by
  have hmlen : (ctx.digest ctx.secret key).length = L := hL key
  have hset : (key ++ '_' :: ctx.digest ctx.secret key).set (key.length + 1 + i) c
      = key ++ '_' :: (ctx.digest ctx.secret key).set i c := by
    have h1 : key.length + 1 + i = key.length + (1 + i) := by omega
    have h3 : 1 + i = i + 1 := by omega
    rw [h1, set_append_shift, h3, List.set_cons_succ]
  rw [hset]
  by_cases hu : c = '_'
  · subst hu
    have hilt : i < (ctx.digest ctx.secret key).length := by omega
    have htake : (ctx.digest ctx.secret key).set i '_'
        = (ctx.digest ctx.secret key).take i
            ++ '_' :: (ctx.digest ctx.secret key).drop (i + 1) := by
      rw [List.set_eq_take_append_cons_drop, if_pos hilt]
    have hdrop : '_' ∉ (ctx.digest ctx.secret key).drop (i + 1) :=
      fun hm => hno key (List.drop_subset _ _ hm)
    have hassoc : key ++ '_' :: ((ctx.digest ctx.secret key).take i
          ++ '_' :: (ctx.digest ctx.secret key).drop (i + 1))
        = (key ++ '_' :: (ctx.digest ctx.secret key).take i)
            ++ '_' :: (ctx.digest ctx.secret key).drop (i + 1) := by
      simp
    have hne : ctx.digest ctx.secret
          (key ++ '_' :: (ctx.digest ctx.secret key).take i)
        ≠ (ctx.digest ctx.secret key).drop (i + 1) := by
      intro he
      have hlen := congrArg List.length he
      rw [hL, List.length_drop, hmlen] at hlen
      omega
    rw [htake, hassoc, unserialize_split ctx _ _ hdrop, if_neg hne]
    simp [Except.map, hempty]
  · have hnomem : '_' ∉ (ctx.digest ctx.secret key).set i c := by
      intro hm
      rcases List.mem_or_eq_of_mem_set hm with h | h
      · exact hno key h
      · exact hu h.symm
    have hilt : i < (ctx.digest ctx.secret key).length := by omega
    have hne : ctx.digest ctx.secret key ≠ (ctx.digest ctx.secret key).set i c := by
      intro he
      exact set_ne_of_getD hilt hc he.symm
    rw [unserialize_split ctx _ _ hnomem, if_neg hne]
    simp [Except.map, hempty]

/-- Claim C6: tamper sensitivity - for a validly issued token, changing any
single character within its MAC portion to a different character makes
unserialize return (never raising) a session with an empty data mapping, so
the original stored payload is never produced. -/
theorem C6_mac_tamper_yields_empty_session (ctx : Ctx) (L : Nat) (s : Session)
    (expires : Option Nat) (st : Store) (i : Nat) (c : Char)
    (hL : ∀ k, (ctx.digest ctx.secret k).length = L)
    (hno : ∀ k, '_' ∉ ctx.digest ctx.secret k)
    (hempty : ctx.decode [] = [])
    (hi : i < L)
    (hc : c ≠ (ctx.digest ctx.secret
        (generate_session_key ctx.random_source expires ctx.bits)).getD i ' ') :
    Except.map Session.data
      (Session.unserialize ctx
        ((Session.serialize ctx s expires st).1.set
          ((generate_session_key ctx.random_source expires ctx.bits).length + 1 + i) c)
        (store_get (Session.serialize ctx s expires st).2))
      = Except.ok [] := by
  have h := unserialize_tampered ctx L
    (generate_session_key ctx.random_source expires ctx.bits) i c
    (store_get (Session.serialize ctx s expires st).2) hL hno hempty hi hc
  simpa only [Session.serialize, store_put] using h

/-- Claim C6 witness: concrete token with its first MAC character changed. -/
theorem C6_tamper_witness :
    Except.map Session.data
      (Session.unserialize ctx0
        ((Session.serialize ctx0 s0 (some 3) []).1.set
          ((generate_session_key ctx0.random_source (some 3) ctx0.bits).length + 1 + 0) '0')
        (store_get (Session.serialize ctx0 s0 (some 3) []).2))
      = Except.ok [] :=
  C6_mac_tamper_yields_empty_session ctx0 4 s0 (some 3) [] 0 '0'
    (fun _ => rfl) (fun _ => by show '_' ∉ String.data "ffff"; decide)
    rfl (by decide) (by decide)
